import Mathlib

/-! Floo website: installation command synthesis and GitHub metadata display.

A shallow embedding of the two components of the website that carry logic:

* `Installation.jsx`: the platform table, the lookup of the selected
  platform's release file and the template literal that builds the
  installation script;
* `GitHub.jsx`: the two state slots filled by the completion handlers of
  the two `fetch` calls, and the conditional rendering of the stats card
  and the release card.

JavaScript strings are embedded as Lean strings, `undefined` results of a
lookup as `Option`, and a thrown exception as `Except`.
-/

namespace Floo

/-! ## Installation.jsx -/

/-- One element of the `platforms` array literal. A missing `recommended`
property (`undefined` in the source) is embedded as `false`; it is only
read in a boolean position. -/
structure Platform where
  id : String
  name : String
  file : String
  recommended : Bool
deriving DecidableEq, Repr

/-- The `platforms` array literal of `Installation`. -/
def platforms : List Platform :=
  [ { id := "linux-haswell", name := "Linux x86_64 (Haswell+)",
      file := "floo-x86_64-linux-gnu-haswell.tar.gz", recommended := true },
    { id := "linux-baseline", name := "Linux x86_64",
      file := "floo-x86_64-linux-gnu.tar.gz", recommended := false },
    { id := "linux-arm", name := "Linux ARM64",
      file := "floo-aarch64-linux-gnu.tar.gz", recommended := false },
    { id := "macos-m1", name := "macOS Apple Silicon (M1+)",
      file := "floo-aarch64-macos-m1.tar.gz", recommended := true },
    { id := "macos-arm", name := "macOS Apple Silicon",
      file := "floo-aarch64-macos.tar.gz", recommended := false },
    { id := "macos-haswell", name := "macOS Intel (Haswell+)",
      file := "floo-x86_64-macos-haswell.tar.gz", recommended := true },
    { id := "macos-intel", name := "macOS Intel",
      file := "floo-x86_64-macos.tar.gz", recommended := false } ]

/-- The exceptions the embedded code can raise. Reading a property of
`undefined` raises a `TypeError`. -/
inductive JsError where
  | typeError
deriving DecidableEq, Repr

/-- The `Array.prototype.find` call: the first element whose `id` is
strictly equal to the argument, or `undefined`. -/
def findPlatform (selectedPlatform : String) : Option Platform :=
  platforms.find? (fun p => decide (p.id = selectedPlatform))

/-- The constant `selectedFile`:
`platforms.find(p => p.id === selectedPlatform)?.file`. -/
def selectedFile (selectedPlatform : String) : Option String :=
  (findPlatform selectedPlatform).map (fun p => p.file)

/-- `String.prototype.replace` with a string pattern, on character lists:
only the first occurrence of the pattern is replaced. (Replacement
patterns introduced by a dollar sign are not modelled; the source passes
the empty replacement.) -/
def replaceFirstChars (pat rep : List Char) : List Char → List Char
  | [] => if pat.isEmpty then rep else []
  | c :: cs =>
    if pat.isPrefixOf (c :: cs) then rep ++ (c :: cs).drop pat.length
    else c :: replaceFirstChars pat rep cs

/-- `s.replace(pat, rep)` for strings. -/
def jsReplace (s pat rep : String) : String :=
  String.mk (replaceFirstChars pat.data rep.data s.data)

/-- A template substitution of a value that may be `undefined`. -/
def templateValue : Option String → String
  | some s => s
  | none => "undefined"

/-- The method call `selectedFile.replace('.tar.gz', '')`: a `TypeError`
when the receiver is `undefined`. -/
def replaceOn (receiver : Option String) (pat rep : String) : Except JsError String :=
  match receiver with
  | some s => Except.ok (jsReplace s pat rep)
  | none => Except.error JsError.typeError

/-- The template literal `installCommand` of `Installation`, as a function
of the state variable `selectedPlatform`. The substitutions are evaluated
in order; the third one can throw, in which case no string is built. -/
def installCommand (selectedPlatform : String) : Except JsError String :=
  let file := selectedFile selectedPlatform
  let curlArg := templateValue file
  let tarArg := templateValue file
  match replaceOn file ".tar.gz" "" with
  | Except.error e => Except.error e
  | Except.ok dir =>
    Except.ok
      ("# Download and extract\n" ++
       "curl -LO https://github.com/YUX/floo/releases/latest/download/" ++ curlArg ++ "\n" ++
       "tar xzf " ++ tarArg ++ "\n" ++
       "cd " ++ dir ++ "\n" ++
       "\n" ++
       "# Make binaries executable\n" ++
       "chmod +x flooc floos\n" ++
       "\n" ++
       "# Test the binaries\n" ++
       "./flooc --version\n" ++
       "./floos --version")

/-! ### Reading a script line by line -/

/-- Splits a character list at every line feed. -/
def splitLines : List Char → List (List Char)
  | [] => [[]]
  | c :: cs =>
    match splitLines cs with
    | [] => [[]]
    | l :: ls => if c = '\n' then [] :: l :: ls else (c :: l) :: ls

/-- The lines of a text. -/
def scriptLines (text : String) : List String :=
  (splitLines text.data).map String.mk

/-- A line that is empty or starts with `#` carries no command. -/
def isCommandLine (line : String) : Bool :=
  match line.data with
  | [] => false
  | c :: _ => c != '#'

/-- The command lines of a text: what a shell executes. -/
def commandLines (text : String) : List String :=
  (scriptLines text).filter isCommandLine

/-- Whether `pat` occurs somewhere in `s`. -/
def containsChars (pat : List Char) : List Char → Bool
  | [] => pat.isEmpty
  | c :: cs => pat.isPrefixOf (c :: cs) || containsChars pat cs

/-- Whether the string `pat` occurs in the string `s`. -/
def containsStr (s pat : String) : Bool :=
  containsChars pat.data s.data

/-- The six command lines named by the specification for artifact `f`
with directory `d`. -/
def sixLines (f d : String) : List String :=
  [ "curl -LO https://github.com/YUX/floo/releases/latest/download/" ++ f,
    "tar xzf " ++ f,
    "cd " ++ d,
    "chmod +x flooc floos",
    "./flooc --version",
    "./floos --version" ]

/-- Removes the last `n` characters. -/
def dropLast (n : Nat) (s : String) : String :=
  String.mk (s.data.take (s.data.length - n))

/-- Whether `s` ends with `suffix`. -/
def endsWithStr (s suffix : String) : Bool :=
  suffix.data.isSuffixOf s.data

/-- The script text as the source's template literal lays it out for
artifact `f` with directory `d`: eleven lines, of which three are comments
and two are blank. -/
def elevenLines (f d : String) : List String :=
  [ "# Download and extract",
    "curl -LO https://github.com/YUX/floo/releases/latest/download/" ++ f,
    "tar xzf " ++ f,
    "cd " ++ d,
    "",
    "# Make binaries executable",
    "chmod +x flooc floos",
    "",
    "# Test the binaries",
    "./flooc --version",
    "./floos --version" ]

/-- The text returned by a computation, when it returned one. -/
def textOf (r : Except JsError String) : Option String :=
  match r with
  | Except.ok t => some t
  | Except.error _ => none

/-- The entry for the default selection. -/
def linuxHaswell : Platform :=
  { id := "linux-haswell", name := "Linux x86_64 (Haswell+)",
    file := "floo-x86_64-linux-gnu-haswell.tar.gz", recommended := true }

/-- The last entry of the table. -/
def macosIntel : Platform :=
  { id := "macos-intel", name := "macOS Intel",
    file := "floo-x86_64-macos.tar.gz", recommended := false }

/-- The directory a script changes into: the argument of its first `cd`
line. -/
def cdTarget (text : String) : Option String :=
  (scriptLines text).findSome? fun line =>
    match line.data with
    | 'c' :: 'd' :: ' ' :: rest => some (String.mk rest)
    | _ => none

/-- A line free of template markers and of the text `undefined`. -/
def substituted (line : String) : Bool :=
  !containsStr line "$\x7b" && !containsStr line "undefined"

/-! ### The selection state -/

/-- The initial value of the state variable `selectedPlatform`:
`useState('linux-haswell')`. -/
def initialSelection : String := "linux-haswell"

/-- The state setter `setSelectedPlatform`: the new value replaces the old
one. -/
def setSelectedPlatform (id : String) (_selectedPlatform : String) : String := id

/-- The `onClick` handler of the button rendered by `platforms.map` for the
element at position `i`: `() => setSelectedPlatform(platform.id)`. There is
one button for each position of the table and no other. -/
def clickButton (i : Fin platforms.length) (selectedPlatform : String) : String :=
  setSelectedPlatform (platforms.get i).id selectedPlatform

/-- The value of `selectedPlatform` after a sequence of button clicks,
starting from the initial value. -/
def afterClicks (clicks : List (Fin platforms.length)) : String :=
  clicks.foldl (fun selected i => clickButton i selected) initialSelection

/-- The archive suffix passed to `replace`. -/
def archiveSuffix : String := ".tar.gz"

/-! ## GitHub.jsx -/

/-- The value a response body parses to, as far as the component reads it.
A JSON object is represented by the record `α` of the properties the
component reads from it; the elements of an array are never read. A
number at the top level is only tested for being zero. -/
inductive Json (α : Type) where
  | null
  | bool (b : Bool)
  | num (n : Int)
  | str (s : String)
  | arr
  | obj (o : α)
deriving DecidableEq, Repr

/-- JavaScript truthiness, as tested by the `&&` guards of the render. -/
def Json.truthy {α : Type} : Json α → Bool
  | Json.null => false
  | Json.bool b => b
  | Json.num n => n != 0
  | Json.str s => s != ""
  | Json.arr => true
  | Json.obj _ => true

/-- The properties of a repository-info object that the component reads:
`stargazers_count`, `forks_count` and `open_issues_count`, each a number,
or `none` when the property is missing or `null`. The type `ν` stands for
the numbers of the JavaScript runtime; nothing is assumed about it. -/
structure RepoData (ν : Type) where
  stargazers_count : Option ν
  forks_count : Option ν
  open_issues_count : Option ν
deriving DecidableEq, Repr

/-- The properties of a latest-release object that the component reads:
`tag_name`, `published_at` and `html_url`, each a string, or `none` when
the property is missing or `null`. -/
structure ReleaseData where
  tag_name : Option String
  published_at : Option String
  html_url : Option String
deriving DecidableEq, Repr

/-- How a `fetch` call settles: the promise rejects (network failure), or
it resolves with a response that has a status code and a body; the body
is `none` when `res.json()` rejects because the body is not JSON. -/
inductive FetchResult (α : Type) where
  | networkError
  | response (status : Nat) (body : Option (Json α))
deriving DecidableEq, Repr

/-- The `ok` property of a response: a status from 200 to 299. The
component never reads it; it only serves to say which responses count as
successful. -/
def okStatus (status : Nat) : Bool :=
  decide (200 ≤ status) && decide (status ≤ 299)

/-- The specification's reading of a settled query: it has succeeded with
a payload when the response has a success status and its body parses, and
it has failed otherwise. The component computes no such value; the
definition only serves to state which outcomes count as successful. -/
def specSucceeded {α : Type} : FetchResult α → Option (Json α)
  | FetchResult.networkError => none
  | FetchResult.response status body => if okStatus status then body else none

/-- The two state variables of `GitHub`. -/
structure GitHubState (ν : Type) where
  repoData : Json (RepoData ν)
  latestRelease : Json ReleaseData
deriving DecidableEq, Repr

/-- Both `useState(null)` calls. -/
def initialState {ν : Type} : GitHubState ν :=
  { repoData := Json.null, latestRelease := Json.null }

/-- The state setter `setRepoData`. -/
def setRepoData {ν : Type} (data : Json (RepoData ν)) (s : GitHubState ν) : GitHubState ν :=
  { s with repoData := data }

/-- The state setter `setLatestRelease`. -/
def setLatestRelease {ν : Type} (data : Json ReleaseData) (s : GitHubState ν) :
    GitHubState ν :=
  { s with latestRelease := data }

/-- The step `.then(res => res.json())` of a promise chain: the parsed
body, or `none` when the chain is rejected before or at this step. The
status of the response is not read. -/
def parsedBody {α : Type} : FetchResult α → Option (Json α)
  | FetchResult.networkError => none
  | FetchResult.response _ body => body

/-- The promise chain of the repository-info fetch, once settled:
`.then(data => setRepoData(data))`, or the `.catch` handler, which only
writes to the console. -/
def repoFetchSettled {ν : Type} (r : FetchResult (RepoData ν)) (s : GitHubState ν) :
    GitHubState ν :=
  match parsedBody r with
  | some data => setRepoData data s
  | none => s

/-- The promise chain of the latest-release fetch, once settled:
`.then(data => setLatestRelease(data))`, or the `.catch` handler, which
only writes to the console. -/
def releaseFetchSettled {ν : Type} (r : FetchResult ReleaseData) (s : GitHubState ν) :
    GitHubState ν :=
  match parsedBody r with
  | some data => setLatestRelease data s
  | none => s

/-- Property reads on the value of `repoData`: on a value that is not an
object every property read here is `undefined`. -/
def repoProps {ν : Type} : Json (RepoData ν) → RepoData ν
  | Json.obj o => o
  | _ => { stargazers_count := none, forks_count := none, open_issues_count := none }

/-- Property reads on the value of `latestRelease`. -/
def releaseProps : Json ReleaseData → ReleaseData
  | Json.obj o => o
  | _ => { tag_name := none, published_at := none, html_url := none }

/-- A value placed between JSX tags: a string or a number. -/
inductive Child where
  | text (s : String)
  | number (n : Nat)
deriving DecidableEq, Repr

/-- The text React puts on the page for a child. -/
def Child.display : Child → String
  | Child.text s => s
  | Child.number n => String.mk (Nat.toDigits 10 n)

/-- The expression `count?.toLocaleString() || 0`: the optional call
yields `undefined` on a missing count, and `||` falls back to the number
`0` when its left operand is `undefined` or the empty string. The method
`Number.prototype.toLocaleString`, called without a locale, belongs to the
runtime and formats for the locale of the host; it is the parameter
`toLocaleString`. -/
def statValue {ν : Type} (toLocaleString : ν → String) (count : Option ν) : Child :=
  match count.map toLocaleString with
  | some s => if s = "" then Child.number 0 else Child.text s
  | none => Child.number 0

/-- The three values shown on the stats card. -/
structure StatsCard where
  stars : Child
  forks : Child
  issues : Child
deriving DecidableEq, Repr

/-- The JSX expression `repoData && (<div className="github-card stats-card">...)`:
the card when `repoData` is truthy, nothing otherwise. -/
def statsSection {ν : Type} (toLocaleString : ν → String) (s : GitHubState ν) :
    Option StatsCard :=
  if s.repoData.truthy then
    some { stars := statValue toLocaleString (repoProps s.repoData).stargazers_count,
           forks := statValue toLocaleString (repoProps s.repoData).forks_count,
           issues := statValue toLocaleString (repoProps s.repoData).open_issues_count }
  else none

/-- What the release card shows: the tag name, the publish date (kept as
the argument given to `new Date`, its formatting is not modelled) and the
target of the release link. -/
structure ReleaseCard where
  version : String
  publishedAt : Option String
  href : Option String
deriving DecidableEq, Repr

/-- The JSX expression
`latestRelease && latestRelease.tag_name && (<div className="github-card release-card">...)`:
the card when both operands are truthy, nothing otherwise. -/
def releaseSection {ν : Type} (s : GitHubState ν) : Option ReleaseCard :=
  if s.latestRelease.truthy then
    match (releaseProps s.latestRelease).tag_name with
    | some tag =>
      if tag = "" then none
      else some { version := tag,
                  publishedAt := (releaseProps s.latestRelease).published_at,
                  href := (releaseProps s.latestRelease).html_url }
    | none => none
  else none

/-- The error object GitHub sends with a non-success status, such as
`{"message": "Not Found"}`: it has none of the three counts. -/
def errorBodyRepo {ν : Type} : Json (RepoData ν) :=
  Json.obj { stargazers_count := none, forks_count := none, open_issues_count := none }

/-- The same error object, read by the release card: it has no
`tag_name`, `published_at` or `html_url`. -/
def errorBodyRelease : Json ReleaseData :=
  Json.obj { tag_name := none, published_at := none, html_url := none }

/-- One formatter a runtime can provide, on the natural numbers: the plain
decimal digits. It only serves as an instance of the parameter
`toLocaleString`. -/
def decimalString (n : Nat) : String :=
  String.mk (Nat.toDigits 10 n)

/-! ## Lemmas on the resolver -/

theorem textOf_eq_some {r : Except JsError String} {t : String}
    (h : textOf r = some t) : r = Except.ok t := by
  cases r with
  | error e => simp [textOf] at h
  | ok a => simp [textOf] at h; rw [h]

set_option maxRecDepth 100000 in
theorem table_script_lines :
    ∀ p ∈ platforms,
      (textOf (installCommand p.id)).map scriptLines
        = some (elevenLines p.file (dropLast 7 p.file)) := by
  decide

set_option maxRecDepth 100000 in
theorem table_script_text :
    ∀ p ∈ platforms,
      textOf (installCommand p.id)
        = some (String.intercalate "\n" (elevenLines p.file (dropLast 7 p.file))) := by
  decide

set_option maxRecDepth 100000 in
theorem table_command_lines :
    ∀ p ∈ platforms,
      (textOf (installCommand p.id)).map commandLines
        = some (sixLines p.file (dropLast 7 p.file)) := by
  decide

set_option maxRecDepth 100000 in
theorem table_substituted :
    ∀ p ∈ platforms,
      (textOf (installCommand p.id)).map (fun t => (scriptLines t).all substituted)
        = some true := by
  decide

set_option maxRecDepth 100000 in
theorem table_find : ∀ p ∈ platforms, findPlatform p.id = some p := by
  decide

set_option maxRecDepth 100000 in
theorem table_suffix :
    ∀ p ∈ platforms,
      endsWithStr p.file ".tar.gz" = true ∧
      p.file = dropLast 7 p.file ++ ".tar.gz" ∧
      jsReplace p.file ".tar.gz" "" = dropLast 7 p.file ∧
      (textOf (installCommand p.id)).bind cdTarget = some (dropLast 7 p.file) := by
  decide

set_option maxRecDepth 100000 in
theorem table_keys :
    ∀ p ∈ platforms, ∀ q ∈ platforms,
      (p.id = q.id → p = q) ∧ (p.file = q.file → p = q) := by
  decide

theorem findPlatform_eq_none {id : String} (h : id ∉ platforms.map Platform.id) :
    findPlatform id = none := by
  unfold findPlatform
  rw [List.find?_eq_none]
  intro p hp hid
  exact h (List.mem_map.2 ⟨p, hp, of_decide_eq_true hid⟩)

theorem installCommand_eleven_lines_aux (p : Platform) (hp : p ∈ platforms) :
    ∃ text, installCommand p.id = Except.ok text ∧
      text = String.intercalate "\n" (elevenLines p.file (dropLast 7 p.file)) ∧
      scriptLines text = elevenLines p.file (dropLast 7 p.file) := by
  have htext := textOf_eq_some (table_script_text p hp)
  have hlines := table_script_lines p hp
  rw [htext] at hlines
  exact ⟨_, htext, rfl, by simpa [textOf] using hlines⟩

/-! ## The claims on the resolver -/

/-- C1 (counterexample): for the table entry `linux-haswell` the generated
script is not the six command lines alone: read line by line it differs
from them, and it has eleven lines. -/
theorem installCommand_not_only_six_lines :
    linuxHaswell ∈ platforms ∧
    (textOf (installCommand linuxHaswell.id)).map scriptLines
      ≠ some (sixLines linuxHaswell.file (dropLast 7 linuxHaswell.file)) ∧
    (textOf (installCommand linuxHaswell.id)).map (fun t => (scriptLines t).length)
      = some 11 := by
  set_option maxRecDepth 100000 in decide

/-- C1 (amended): for every entry of the platform table the generated
script is exactly eleven lines, joined by line feeds: the comment
`# Download and extract`, the curl, tar and cd lines, a blank line, the
comment `# Make binaries executable`, the chmod line, a blank line, the
comment `# Test the binaries`, and the two version lines. -/
theorem installCommand_eleven_lines (p : Platform) (hp : p ∈ platforms) :
    ∃ text, installCommand p.id = Except.ok text ∧
      text = String.intercalate "\n" (elevenLines p.file (dropLast 7 p.file)) ∧
      scriptLines text = elevenLines p.file (dropLast 7 p.file) := by
  exact installCommand_eleven_lines_aux p hp

theorem installCommand_eleven_lines_witness :
    linuxHaswell ∈ platforms ∧
    ∃ text, installCommand linuxHaswell.id = Except.ok text ∧
      text = String.intercalate "\n"
        (elevenLines linuxHaswell.file (dropLast 7 linuxHaswell.file)) ∧
      scriptLines text = elevenLines linuxHaswell.file (dropLast 7 linuxHaswell.file) :=
  ⟨by decide, installCommand_eleven_lines linuxHaswell (by decide)⟩

/-- C2: for every id of the platform table the lookup finds an entry, the
script is produced without an error, its lines that are neither blank nor
comments are exactly the curl, tar, cd, chmod and two version lines for
that entry's file, and no line of the script contains a template marker
or the text `undefined`. -/
theorem installCommand_enumerated_id (id : String)
    (h : id ∈ platforms.map Platform.id) :
    ∃ p, p ∈ platforms ∧ p.id = id ∧ findPlatform id = some p ∧
      ∃ text, installCommand id = Except.ok text ∧
        commandLines text = sixLines p.file (dropLast 7 p.file) ∧
        ∀ line ∈ scriptLines text,
          containsStr line "$\x7b" = false ∧ containsStr line "undefined" = false := by
  obtain ⟨p, hp, rfl⟩ := List.mem_map.1 h
  obtain ⟨text, htext, -, -⟩ := installCommand_eleven_lines_aux p hp
  have hcmd := table_command_lines p hp
  have hsub := table_substituted p hp
  rw [htext] at hcmd hsub
  simp only [textOf, Option.map_some', Option.some.injEq] at hcmd hsub
  refine ⟨p, hp, rfl, table_find p hp, text, htext, hcmd, ?_⟩
  intro line hline
  have := List.all_eq_true.1 hsub line hline
  simpa [substituted] using this

theorem installCommand_enumerated_id_witness :
    "macos-m1" ∈ platforms.map Platform.id ∧
    ∃ p, p ∈ platforms ∧ p.id = "macos-m1" ∧ findPlatform "macos-m1" = some p ∧
      ∃ text, installCommand "macos-m1" = Except.ok text ∧
        commandLines text = sixLines p.file (dropLast 7 p.file) ∧
        ∀ line ∈ scriptLines text,
          containsStr line "$\x7b" = false ∧ containsStr line "undefined" = false :=
  ⟨by decide, installCommand_enumerated_id "macos-m1" (by decide)⟩

/-- C3: for every string that is the id of no entry of the platform table,
building the script fails: the lookup yields `undefined`, the call of
`replace` on it raises the error (a `TypeError` in the source, the
specification's lookup failure), and no script text is returned, neither
whole nor in part. -/
theorem installCommand_unknown_id (id : String)
    (h : id ∉ platforms.map Platform.id) :
    findPlatform id = none ∧
    installCommand id = Except.error JsError.typeError ∧
    textOf (installCommand id) = none ∧
    ∀ text, installCommand id ≠ Except.ok text := by
  have hfind := findPlatform_eq_none h
  have herr : installCommand id = Except.error JsError.typeError := by
    simp [installCommand, selectedFile, hfind, replaceOn]
  refine ⟨hfind, herr, by rw [herr]; rfl, ?_⟩
  intro text htext
  rw [herr] at htext
  cases htext

theorem installCommand_unknown_id_witness :
    "windows-x64" ∉ platforms.map Platform.id ∧
    findPlatform "windows-x64" = none ∧
    installCommand "windows-x64" = Except.error JsError.typeError ∧
    textOf (installCommand "windows-x64") = none ∧
    ∀ text, installCommand "windows-x64" ≠ Except.ok text :=
  ⟨by decide, installCommand_unknown_id "windows-x64" (by decide)⟩

/-- C4: for every entry of the platform table the artifact file ends with
`.tar.gz`, and the directory the script changes into is the file with
that suffix removed; for `linux-haswell` it is
`floo-x86_64-linux-gnu-haswell`. -/
theorem cd_target_is_file_without_suffix (p : Platform) (hp : p ∈ platforms) :
    endsWithStr p.file ".tar.gz" = true ∧
    p.file = dropLast 7 p.file ++ ".tar.gz" ∧
    replaceOn (some p.file) ".tar.gz" "" = Except.ok (dropLast 7 p.file) ∧
    (∃ text, installCommand p.id = Except.ok text ∧
      cdTarget text = some (dropLast 7 p.file)) ∧
    (p.id = "linux-haswell" →
      p.file = "floo-x86_64-linux-gnu-haswell.tar.gz" ∧
      ∃ text, installCommand "linux-haswell" = Except.ok text ∧
        cdTarget text = some "floo-x86_64-linux-gnu-haswell") := by
  obtain ⟨hends, hsplit, hrep, hcd⟩ := table_suffix p hp
  obtain ⟨text, htext, -, -⟩ := installCommand_eleven_lines_aux p hp
  rw [htext] at hcd
  have hcd2 : cdTarget text = some (dropLast 7 p.file) := by simpa [textOf] using hcd
  refine ⟨hends, hsplit, by simp [replaceOn, hrep], ⟨text, htext, hcd2⟩, ?_⟩
  intro hid
  have hp2 : p = linuxHaswell :=
    (table_keys p hp linuxHaswell (by decide)).1 (by rw [hid]; rfl)
  subst hp2
  exact ⟨rfl, text, htext, by rw [hcd2]; decide⟩

theorem cd_target_is_file_without_suffix_witness :
    linuxHaswell ∈ platforms ∧
    endsWithStr linuxHaswell.file ".tar.gz" = true ∧
    linuxHaswell.file = dropLast 7 linuxHaswell.file ++ ".tar.gz" ∧
    replaceOn (some linuxHaswell.file) ".tar.gz" ""
      = Except.ok (dropLast 7 linuxHaswell.file) ∧
    (∃ text, installCommand linuxHaswell.id = Except.ok text ∧
      cdTarget text = some (dropLast 7 linuxHaswell.file)) ∧
    (linuxHaswell.id = "linux-haswell" →
      linuxHaswell.file = "floo-x86_64-linux-gnu-haswell.tar.gz" ∧
      ∃ text, installCommand "linux-haswell" = Except.ok text ∧
        cdTarget text = some "floo-x86_64-linux-gnu-haswell") :=
  ⟨by decide, cd_target_is_file_without_suffix linuxHaswell (by decide)⟩

/-- C5: in the platform table no two entries share an id and no two share
an artifact file; so the first-match lookup by id returns the entry with
that id, and two entries with the same file have the same id. -/
theorem table_ids_and_files_unique (p q : Platform)
    (hp : p ∈ platforms) (hq : q ∈ platforms) :
    (platforms.map Platform.id).Nodup ∧
    (platforms.map Platform.file).Nodup ∧
    (p.id = q.id → p = q) ∧
    (p.file = q.file → p.id = q.id) ∧
    findPlatform p.id = some p ∧
    selectedFile p.id = some p.file ∧
    (selectedFile p.id = selectedFile q.id → p.id = q.id) := by
  have hkeys := table_keys p hp q hq
  have hfp := table_find p hp
  have hfq := table_find q hq
  refine ⟨by decide, by decide, hkeys.1, fun h => by rw [hkeys.2 h], hfp,
    by simp [selectedFile, hfp], ?_⟩
  intro h
  simp only [selectedFile, hfp, hfq, Option.map_some', Option.some.injEq] at h
  rw [hkeys.2 h]

theorem table_ids_and_files_unique_witness :
    linuxHaswell ∈ platforms ∧ macosIntel ∈ platforms ∧
    (platforms.map Platform.id).Nodup ∧
    (platforms.map Platform.file).Nodup ∧
    (linuxHaswell.id = macosIntel.id → linuxHaswell = macosIntel) ∧
    (linuxHaswell.file = macosIntel.file → linuxHaswell.id = macosIntel.id) ∧
    findPlatform linuxHaswell.id = some linuxHaswell ∧
    selectedFile linuxHaswell.id = some linuxHaswell.file ∧
    (selectedFile linuxHaswell.id = selectedFile macosIntel.id →
      linuxHaswell.id = macosIntel.id) :=
  ⟨by decide, by decide,
    table_ids_and_files_unique linuxHaswell macosIntel (by decide) (by decide)⟩

/-! ## Lemmas on the metadata display -/

theorem toDigitsCore_ne_nil (b fuel n : Nat) (ds : List Char) (h : ds ≠ []) :
    Nat.toDigitsCore b fuel n ds ≠ [] := by
  induction fuel generalizing n ds with
  | zero => simpa [Nat.toDigitsCore] using h
  | succ f ih =>
    unfold Nat.toDigitsCore
    by_cases h0 : n / b = 0
    · simp [h0]
    · simp only [h0, if_false]
      exact ih _ _ (List.cons_ne_nil _ _)

theorem toDigits_ne_nil (n : Nat) : Nat.toDigits 10 n ≠ [] := by
  unfold Nat.toDigits Nat.toDigitsCore
  by_cases h0 : n / 10 = 0
  · simp [h0]
  · simp only [h0, if_false]
    exact toDigitsCore_ne_nil _ _ _ _ (List.cons_ne_nil _ _)

theorem decimalString_ne_empty (n : Nat) : decimalString n ≠ "" := by
  unfold decimalString
  intro h
  exact toDigits_ne_nil n (congrArg String.data h)

theorem specSucceeded_eq_some {α : Type} {r : FetchResult α} {payload : Json α}
    (h : specSucceeded r = some payload) :
    ∃ status, okStatus status = true ∧ r = FetchResult.response status (some payload) := by
  cases r with
  | networkError => simp [specSucceeded] at h
  | response status body =>
    by_cases hok : okStatus status = true
    · simp only [specSucceeded, hok, if_true] at h
      exact ⟨status, hok, by rw [h]⟩
    · simp [specSucceeded, hok] at h

theorem statValue_present {ν : Type} (toLocaleString : ν → String)
    (hfmt : ∀ v, toLocaleString v ≠ "") (c : Option ν) :
    statValue toLocaleString c =
      (match c with
       | some v => Child.text (toLocaleString v)
       | none => Child.number 0) := by
  cases c with
  | none => rfl
  | some v => simp [statValue, hfmt v]

theorem releaseSection_isSome_iff {ν : Type} (s : GitHubState ν) :
    (releaseSection s).isSome = true ↔
      ∃ d tag, s.latestRelease = Json.obj d ∧ d.tag_name = some tag ∧ tag ≠ "" := by
  obtain ⟨repo, rel⟩ := s
  constructor
  · intro h
    cases rel with
    | obj d =>
      obtain ⟨tag, pub, url⟩ := d
      cases tag with
      | none => simp [releaseSection, releaseProps, Json.truthy] at h
      | some t =>
        by_cases ht : t = ""
        · simp [releaseSection, releaseProps, Json.truthy, ht] at h
        · exact ⟨_, t, rfl, rfl, ht⟩
    | null => simp [releaseSection, releaseProps, Json.truthy] at h
    | bool b => cases b <;> simp [releaseSection, releaseProps, Json.truthy] at h
    | num n => by_cases hn : n = 0 <;> simp [releaseSection, releaseProps, Json.truthy, hn] at h
    | str t => by_cases ht : t = "" <;> simp [releaseSection, releaseProps, Json.truthy, ht] at h
    | arr => simp [releaseSection, releaseProps, Json.truthy] at h
  · rintro ⟨d, tag, hrel, htag, hne⟩
    simp only at hrel
    subst hrel
    simp [releaseSection, releaseProps, Json.truthy, htag, hne]

theorem releaseSection_card {ν : Type} (s : GitHubState ν) (card : ReleaseCard)
    (hcard : releaseSection s = some card) :
    ∃ d, s.latestRelease = Json.obj d ∧ d.tag_name = some card.version ∧
      card.publishedAt = d.published_at ∧ card.href = d.html_url := by
  have hsome : (releaseSection s).isSome = true := by rw [hcard]; rfl
  obtain ⟨d, tag, hrel, htag, hne⟩ := (releaseSection_isSome_iff s).1 hsome
  refine ⟨d, hrel, ?_⟩
  simp only [releaseSection, hrel, Json.truthy, releaseProps, htag, hne, if_true, if_false,
    Option.some.injEq] at hcard
  subst hcard
  exact ⟨htag, rfl, rfl⟩

/-! ## The claims on the metadata display -/

/-- C6 (the code at the failing input): a repository-info response with
status 404 and the JSON error object as body fills the `repoData` slot,
and the stats card is rendered with three zeros. The release card is
withheld on the same kind of response, and both cards are withheld when
the fetch fails at the network level or the body is not JSON. -/
theorem stats_rendered_on_error_response {ν : Type} (toLocaleString : ν → String) :
    statsSection toLocaleString
        (repoFetchSettled (FetchResult.response 404 (some errorBodyRepo)) initialState)
      = some { stars := Child.number 0, forks := Child.number 0, issues := Child.number 0 } ∧
    specSucceeded (FetchResult.response 404 (some (errorBodyRepo : Json (RepoData ν))))
      = none ∧
    releaseSection
        (releaseFetchSettled (FetchResult.response 404 (some errorBodyRelease))
          (initialState : GitHubState ν))
      = none ∧
    statsSection toLocaleString (repoFetchSettled FetchResult.networkError initialState)
      = none ∧
    statsSection toLocaleString
        (repoFetchSettled (FetchResult.response 500 none) initialState)
      = none ∧
    releaseSection (releaseFetchSettled FetchResult.networkError (initialState : GitHubState ν))
      = none ∧
    releaseSection
        (releaseFetchSettled (FetchResult.response 500 none) (initialState : GitHubState ν))
      = none :=
  ⟨rfl, rfl, rfl, rfl, rfl, rfl, rfl⟩

/-- C7: whatever the outcome of one query, its completion handler leaves
the slot and the rendered section of the other query unchanged. When the
repository-info fetch fails at the network level and the latest-release
fetch succeeds with tag `v0.1.2`, the stats section is absent and the
release section shows `v0.1.2`, in either order of completion. -/
theorem fetch_handlers_frame {ν : Type} (toLocaleString : ν → String)
    (r1 : FetchResult (RepoData ν)) (r2 : FetchResult ReleaseData)
    (s : GitHubState ν) (status : Nat) (publishedAt href : Option String) :
    (repoFetchSettled r1 s).latestRelease = s.latestRelease ∧
    releaseSection (repoFetchSettled r1 s) = releaseSection s ∧
    (releaseFetchSettled r2 s).repoData = s.repoData ∧
    statsSection toLocaleString (releaseFetchSettled r2 s) = statsSection toLocaleString s ∧
    statsSection toLocaleString
        (releaseFetchSettled
          (FetchResult.response status
            (some (Json.obj { tag_name := some "v0.1.2", published_at := publishedAt,
                              html_url := href })))
          (repoFetchSettled FetchResult.networkError initialState))
      = none ∧
    releaseSection
        (releaseFetchSettled
          (FetchResult.response status
            (some (Json.obj { tag_name := some "v0.1.2", published_at := publishedAt,
                              html_url := href })))
          (repoFetchSettled FetchResult.networkError (initialState : GitHubState ν)))
      = some { version := "v0.1.2", publishedAt := publishedAt, href := href } ∧
    releaseSection
        (repoFetchSettled FetchResult.networkError
          (releaseFetchSettled
            (FetchResult.response status
              (some (Json.obj { tag_name := some "v0.1.2", published_at := publishedAt,
                                html_url := href })))
            (initialState : GitHubState ν)))
      = some { version := "v0.1.2", publishedAt := publishedAt, href := href } := by
  have h1 : (repoFetchSettled r1 s).latestRelease = s.latestRelease := by
    unfold repoFetchSettled
    cases parsedBody r1 <;> rfl
  have h2 : (releaseFetchSettled r2 s).repoData = s.repoData := by
    unfold releaseFetchSettled
    cases parsedBody r2 <;> rfl
  refine ⟨h1, ?_, h2, ?_, ?_, ?_, ?_⟩
  · simp only [releaseSection, h1]
  · simp only [statsSection, h2]
  · rfl
  · simp [releaseSection, releaseFetchSettled, repoFetchSettled, parsedBody,
      setLatestRelease, initialState, releaseProps, Json.truthy]
  · simp [releaseSection, releaseFetchSettled, repoFetchSettled, parsedBody,
      setLatestRelease, initialState, releaseProps, Json.truthy]

/-- C8: for every pair of outcomes, completing the two queries in either
order from the initial state gives the same combined state, and each slot
of it is what its own query alone produces. -/
theorem fetch_handlers_commute {ν : Type} (r1 : FetchResult (RepoData ν))
    (r2 : FetchResult ReleaseData) :
    releaseFetchSettled r2 (repoFetchSettled r1 initialState)
      = repoFetchSettled r1 (releaseFetchSettled r2 initialState) ∧
    (releaseFetchSettled r2 (repoFetchSettled r1 initialState)).repoData
      = (repoFetchSettled r1 initialState).repoData ∧
    (releaseFetchSettled r2 (repoFetchSettled r1 initialState)).latestRelease
      = (releaseFetchSettled r2 (initialState : GitHubState ν)).latestRelease := by
  unfold releaseFetchSettled repoFetchSettled
  cases parsedBody r1 <;> cases parsedBody r2 <;> simp [setRepoData, setLatestRelease]

/-- C9: when the repository-info query has succeeded with an object as
payload, the stats section is rendered, and each of the three counts is
shown as the string the runtime's `toLocaleString` returns for the value
of its field when the field is present, whatever that value is, 0
included (the formatted string, never the fallback), and as the number
zero, displayed `0`, when the field is absent. The formatter is the
runtime's, for any locale; it never returns the empty string. -/
theorem stats_counts_rendered {ν : Type} (toLocaleString : ν → String)
    (hfmt : ∀ v, toLocaleString v ≠ "") (r : FetchResult (RepoData ν)) (d : RepoData ν)
    (hsucc : specSucceeded r = some (Json.obj d)) (s : GitHubState ν) :
    (statsSection toLocaleString (repoFetchSettled r s)).isSome = true ∧
    (statsSection toLocaleString (repoFetchSettled r s)).map StatsCard.stars
      = some (match d.stargazers_count with
              | some v => Child.text (toLocaleString v)
              | none => Child.number 0) ∧
    (statsSection toLocaleString (repoFetchSettled r s)).map StatsCard.forks
      = some (match d.forks_count with
              | some v => Child.text (toLocaleString v)
              | none => Child.number 0) ∧
    (statsSection toLocaleString (repoFetchSettled r s)).map StatsCard.issues
      = some (match d.open_issues_count with
              | some v => Child.text (toLocaleString v)
              | none => Child.number 0) ∧
    Child.display (Child.number 0) = "0" := by
  obtain ⟨status, -, rfl⟩ := specSucceeded_eq_some hsucc
  have hs := statValue_present toLocaleString hfmt
  refine ⟨?_, ?_, ?_, ?_, by decide⟩ <;>
    simp [statsSection, repoFetchSettled, parsedBody, setRepoData, repoProps, Json.truthy, hs]

theorem stats_counts_rendered_witness :
    (∀ v, decimalString v ≠ "") ∧
    specSucceeded
        (FetchResult.response 200
          (some (Json.obj ({ stargazers_count := some 0, forks_count := some 12,
                             open_issues_count := none } : RepoData Nat))))
      = some (Json.obj { stargazers_count := some 0, forks_count := some 12,
                         open_issues_count := none }) ∧
    (statsSection decimalString
        (repoFetchSettled
          (FetchResult.response 200
            (some (Json.obj { stargazers_count := some 0, forks_count := some 12,
                              open_issues_count := none })))
          initialState)).isSome
      = true ∧
    (statsSection decimalString
        (repoFetchSettled
          (FetchResult.response 200
            (some (Json.obj { stargazers_count := some 0, forks_count := some 12,
                              open_issues_count := none })))
          initialState)).map StatsCard.stars
      = some (Child.text "0") ∧
    (statsSection decimalString
        (repoFetchSettled
          (FetchResult.response 200
            (some (Json.obj { stargazers_count := some 0, forks_count := some 12,
                              open_issues_count := none })))
          initialState)).map StatsCard.forks
      = some (Child.text "12") ∧
    (statsSection decimalString
        (repoFetchSettled
          (FetchResult.response 200
            (some (Json.obj { stargazers_count := some 0, forks_count := some 12,
                              open_issues_count := none })))
          initialState)).map StatsCard.issues
      = some (Child.number 0) ∧
    Child.display (Child.number 0) = "0" :=
  ⟨decimalString_ne_empty, rfl,
    stats_counts_rendered decimalString decimalString_ne_empty
      (FetchResult.response 200
        (some (Json.obj { stargazers_count := some 0, forks_count := some 12,
                          open_issues_count := none })))
      { stargazers_count := some 0, forks_count := some 12, open_issues_count := none }
      rfl initialState⟩

/-- C10 (counterexample): a latest-release fetch that succeeds with an
object whose tag name is present but is the empty string renders no
release section. -/
theorem release_hidden_for_empty_tag :
    specSucceeded
        (FetchResult.response 200
          (some (Json.obj ({ tag_name := some "",
                             published_at := some "2025-01-01T00:00:00Z",
                             html_url := some "https://github.com/YUX/floo/releases" } :
                           ReleaseData))))
      = some (Json.obj { tag_name := some "", published_at := some "2025-01-01T00:00:00Z",
                         html_url := some "https://github.com/YUX/floo/releases" }) ∧
    (releaseProps
        (releaseFetchSettled
          (FetchResult.response 200
            (some (Json.obj { tag_name := some "", published_at := some "2025-01-01T00:00:00Z",
                              html_url := some "https://github.com/YUX/floo/releases" })))
          (initialState : GitHubState Nat)).latestRelease).tag_name.isSome = true ∧
    releaseSection
        (releaseFetchSettled
          (FetchResult.response 200
            (some (Json.obj { tag_name := some "", published_at := some "2025-01-01T00:00:00Z",
                              html_url := some "https://github.com/YUX/floo/releases" })))
          (initialState : GitHubState Nat))
      = none := by
  decide

/-- C10 (amended): for a latest-release response with a success status
(200 to 299), the release section is rendered if and only if the query
has succeeded with an object whose tag name is present and not the empty
string, and it then shows that tag, publish date and link; when the tag
name is absent or empty the whole section is suppressed, whatever the
other fields are, and so it is when the fetch fails at the network level.
Nothing is said of a response with a non-success status that carries a
tag name. -/
theorem release_section_iff_tag {ν : Type} (status : Nat) (hok : okStatus status = true)
    (body : Option (Json ReleaseData)) (repo : Json (RepoData ν))
    (publishedAt href : Option String) :
    ((releaseSection
        (releaseFetchSettled (FetchResult.response status body)
          { repoData := repo, latestRelease := Json.null })).isSome = true ↔
      ∃ d tag, specSucceeded (FetchResult.response status body) = some (Json.obj d) ∧
        d.tag_name = some tag ∧ tag ≠ "") ∧
    (∀ card,
      releaseSection
          (releaseFetchSettled (FetchResult.response status body)
            { repoData := repo, latestRelease := Json.null })
        = some card →
      ∃ d, specSucceeded (FetchResult.response status body) = some (Json.obj d) ∧
        d.tag_name = some card.version ∧
        card.publishedAt = d.published_at ∧ card.href = d.html_url) ∧
    releaseSection
        (releaseFetchSettled
          (FetchResult.response status
            (some (Json.obj { tag_name := none, published_at := publishedAt,
                              html_url := href })))
          { repoData := repo, latestRelease := Json.null })
      = none ∧
    releaseSection
        (releaseFetchSettled
          (FetchResult.response status
            (some (Json.obj { tag_name := some "", published_at := publishedAt,
                              html_url := href })))
          { repoData := repo, latestRelease := Json.null })
      = none ∧
    releaseSection
        (releaseFetchSettled FetchResult.networkError
          { repoData := repo, latestRelease := Json.null })
      = none := by
  have hspec : specSucceeded (FetchResult.response status body) = body := by
    simp [specSucceeded, hok]
  have hslot : ∀ d : ReleaseData,
      (releaseFetchSettled (FetchResult.response status body)
          ({ repoData := repo, latestRelease := Json.null } : GitHubState ν)).latestRelease
        = Json.obj d → body = some (Json.obj d) := by
    intro d hrel
    cases body with
    | none => simp [releaseFetchSettled, parsedBody] at hrel
    | some data =>
      simp only [releaseFetchSettled, parsedBody, setLatestRelease] at hrel
      rw [hrel]
  rw [hspec]
  refine ⟨?_, ?_, by simp [releaseSection, releaseFetchSettled, parsedBody,
      setLatestRelease, releaseProps, Json.truthy],
    by simp [releaseSection, releaseFetchSettled, parsedBody, setLatestRelease,
      releaseProps, Json.truthy], rfl⟩
  · rw [releaseSection_isSome_iff]
    constructor
    · rintro ⟨d, tag, hrel, htag, hne⟩
      exact ⟨d, tag, hslot d hrel, htag, hne⟩
    · rintro ⟨d, tag, rfl, htag, hne⟩
      exact ⟨d, tag, rfl, htag, hne⟩
  · intro card hcard
    obtain ⟨d, hrel, hrest⟩ := releaseSection_card _ card hcard
    exact ⟨d, hslot d hrel, hrest⟩

theorem release_section_iff_tag_witness :
    okStatus 200 = true ∧
    ((releaseSection
        (releaseFetchSettled
          (FetchResult.response 200
            (some (Json.obj { tag_name := some "v0.1.2", published_at := none,
                              html_url := none })))
          ({ repoData := Json.null, latestRelease := Json.null } : GitHubState Nat))).isSome
        = true ↔
      ∃ (d : ReleaseData) (tag : String),
        specSucceeded
            (FetchResult.response 200
              (some (Json.obj { tag_name := some "v0.1.2", published_at := none,
                                html_url := none })))
          = some (Json.obj d) ∧ d.tag_name = some tag ∧ tag ≠ "") ∧
    (∀ card,
      releaseSection
          (releaseFetchSettled
            (FetchResult.response 200
              (some (Json.obj { tag_name := some "v0.1.2", published_at := none,
                                html_url := none })))
            ({ repoData := Json.null, latestRelease := Json.null } : GitHubState Nat))
        = some card →
      ∃ d : ReleaseData,
        specSucceeded
            (FetchResult.response 200
              (some (Json.obj { tag_name := some "v0.1.2", published_at := none,
                                html_url := none })))
          = some (Json.obj d) ∧ d.tag_name = some card.version ∧
        card.publishedAt = d.published_at ∧ card.href = d.html_url) ∧
    releaseSection
        (releaseFetchSettled
          (FetchResult.response 200
            (some (Json.obj { tag_name := none, published_at := none, html_url := none })))
          ({ repoData := Json.null, latestRelease := Json.null } : GitHubState Nat))
      = none ∧
    releaseSection
        (releaseFetchSettled
          (FetchResult.response 200
            (some (Json.obj { tag_name := some "", published_at := none, html_url := none })))
          ({ repoData := Json.null, latestRelease := Json.null } : GitHubState Nat))
      = none ∧
    releaseSection
        (releaseFetchSettled FetchResult.networkError
          ({ repoData := Json.null, latestRelease := Json.null } : GitHubState Nat))
      = none :=
  ⟨by decide,
    release_section_iff_tag 200 (by decide)
      (some (Json.obj { tag_name := some "v0.1.2", published_at := none, html_url := none }))
      Json.null none none⟩

/-! ## Lemmas on the selection state and on `replace` -/

theorem clickButton_mem (i : Fin platforms.length) (selected : String) :
    clickButton i selected ∈ platforms.map Platform.id := by
  unfold clickButton setSelectedPlatform
  exact List.mem_map.2 ⟨platforms.get i, List.get_mem _ _ _, rfl⟩

theorem foldl_clicks_mem (clicks : List (Fin platforms.length)) (selected : String)
    (h : selected ∈ platforms.map Platform.id) :
    clicks.foldl (fun sel i => clickButton i sel) selected ∈ platforms.map Platform.id := by
  induction clicks generalizing selected with
  | nil => simpa using h
  | cons i rest ih =>
    rw [List.foldl_cons]
    exact ih _ (clickButton_mem i selected)

theorem isPrefixOf_take {pat l : List Char} {k : Nat} (hk : pat.length ≤ k)
    (h : pat.isPrefixOf l = true) : pat.isPrefixOf (l.take k) = true := by
  rw [List.isPrefixOf_iff_prefix] at h ⊢
  rw [List.prefix_iff_eq_take] at h
  have h2 : pat = List.take pat.length (List.take k l) := by
    rw [List.take_take, Nat.min_eq_left hk]
    exact h
  rw [h2]
  exact List.take_prefix _ _

theorem replaceFirstChars_suffix_only (pat pre : List Char) (hpat : pat ≠ [])
    (h : containsChars pat ((pre ++ pat).take ((pre ++ pat).length - 1)) = false) :
    replaceFirstChars pat [] (pre ++ pat) = pre := by
  induction pre with
  | nil =>
    cases pat with
    | nil => exact absurd rfl hpat
    | cons c cs =>
      have hself : (c :: cs).isPrefixOf (c :: cs) = true := by
        rw [List.isPrefixOf_iff_prefix]
      simp only [List.nil_append, replaceFirstChars, hself, if_true, List.nil_append]
      exact List.drop_length _
  | cons a pre ih =>
    have hlen : ((a :: pre) ++ pat).length - 1 = ((pre ++ pat).length - 1) + 1 := by
      have : 0 < pat.length := List.length_pos.2 hpat
      simp only [List.cons_append, List.length_cons, List.length_append]
      omega
    have htake : ((a :: pre) ++ pat).take (((a :: pre) ++ pat).length - 1)
        = a :: (pre ++ pat).take ((pre ++ pat).length - 1) := by
      rw [hlen]
      rfl
    rw [htake] at h
    simp only [containsChars, Bool.or_eq_false_iff] at h
    have hnot : pat.isPrefixOf (a :: (pre ++ pat)) = false := by
      cases hcase : pat.isPrefixOf (a :: (pre ++ pat)) with
      | false => rfl
      | true =>
        have hk : pat.length ≤ ((pre ++ pat).length - 1) + 1 := by
          have : 0 < pat.length := List.length_pos.2 hpat
          simp only [List.length_append]
          omega
        have := isPrefixOf_take hk hcase
        rw [List.take_succ_cons] at this
        rw [this] at h
        exact absurd h.1 (by simp)
    show replaceFirstChars pat [] (a :: (pre ++ pat)) = a :: pre
    rw [replaceFirstChars, if_neg (by rw [hnot]; exact Bool.false_ne_true), ih h.2]

theorem take_append_suffix (pre pat : List Char) :
    (pre ++ pat).take ((pre ++ pat).length - pat.length) = pre := by
  simp

/-! ## The claims on the selection state and on the suffix strip -/

/-- C11: the selection starts as `linux-haswell`, and after any finite
sequence of button clicks, each on the button of one table entry, the
selected id is the id of a table entry; so in every reachable state the
lookup finds an entry and the script is produced without the error. -/
theorem selection_always_enumerated (clicks : List (Fin platforms.length)) :
    afterClicks [] = "linux-haswell" ∧
    afterClicks clicks ∈ platforms.map Platform.id ∧
    (∃ p, p ∈ platforms ∧ findPlatform (afterClicks clicks) = some p) ∧
    (∃ text, installCommand (afterClicks clicks) = Except.ok text) ∧
    installCommand (afterClicks clicks) ≠ Except.error JsError.typeError := by
  have hmem : afterClicks clicks ∈ platforms.map Platform.id :=
    foldl_clicks_mem clicks initialSelection (by decide)
  obtain ⟨p, hp, hid⟩ := List.mem_map.1 hmem
  obtain ⟨text, htext, -, -⟩ := installCommand_eleven_lines_aux p hp
  rw [hid] at htext
  refine ⟨rfl, hmem, ⟨p, hp, by rw [← hid]; exact table_find p hp⟩, ⟨text, htext⟩, ?_⟩
  rw [htext]
  intro h
  cases h

/-- C12 (counterexample): the file name `floo.tar.gz-old.tar.gz` ends with
`.tar.gz`, but the derived directory name is `floo-old.tar.gz`: the first
occurrence is removed, not the trailing one, whose removal would give
`floo.tar.gz-old`. -/
theorem replace_strips_first_occurrence :
    endsWithStr "floo.tar.gz-old.tar.gz" archiveSuffix = true ∧
    replaceOn (some "floo.tar.gz-old.tar.gz") archiveSuffix ""
      = Except.ok "floo-old.tar.gz" ∧
    dropLast 7 "floo.tar.gz-old.tar.gz" = "floo.tar.gz-old" ∧
    replaceOn (some "floo.tar.gz-old.tar.gz") archiveSuffix ""
      ≠ Except.ok (dropLast 7 "floo.tar.gz-old.tar.gz") := by
  refine ⟨by decide, rfl, by decide, ?_⟩
  intro h
  have h2 := Except.ok.inj h
  revert h2
  decide

/-- C12 (amended): for every string `f` that ends with `.tar.gz` and in
which `.tar.gz` occurs nowhere earlier, the derived directory name is `f`
with its last 7 characters removed, and `f` is that name followed by
`.tar.gz`. -/
theorem replace_strips_suffix_when_only_occurrence (f : String)
    (hends : endsWithStr f archiveSuffix = true)
    (honly : containsStr (dropLast 1 f) archiveSuffix = false) :
    replaceOn (some f) archiveSuffix "" = Except.ok (dropLast 7 f) ∧
    f = dropLast 7 f ++ archiveSuffix := by
  obtain ⟨data⟩ := f
  simp only [endsWithStr, List.isSuffixOf_iff_suffix] at hends
  obtain ⟨pre, hpre⟩ := hends
  subst hpre
  simp only [containsStr, dropLast] at honly
  have hrep := replaceFirstChars_suffix_only archiveSuffix.data pre (by decide) honly
  have htake := take_append_suffix pre archiveSuffix.data
  have h7 : archiveSuffix.data.length = 7 := by decide
  rw [h7] at htake
  constructor
  · simp only [replaceOn, jsReplace, dropLast]
    rw [hrep, htake]
  · simp only [dropLast]
    rw [htake]
    rfl

theorem replace_strips_suffix_when_only_occurrence_witness :
    endsWithStr "floo-x86_64-macos.tar.gz" archiveSuffix = true ∧
    containsStr (dropLast 1 "floo-x86_64-macos.tar.gz") archiveSuffix = false ∧
    replaceOn (some "floo-x86_64-macos.tar.gz") archiveSuffix ""
      = Except.ok (dropLast 7 "floo-x86_64-macos.tar.gz") ∧
    "floo-x86_64-macos.tar.gz" = dropLast 7 "floo-x86_64-macos.tar.gz" ++ archiveSuffix :=
  ⟨by decide, by decide,
    replace_strips_suffix_when_only_occurrence "floo-x86_64-macos.tar.gz"
      (by decide) (by decide)⟩

end Floo
